import Mathlib

/-!
# Verification of the `HomePage` routing shell

This development embeds `src/frontend/src/components/HomePage.js`: a React
component whose `render` method builds a `react-router-dom` v5 `<Router>`
containing a `<Switch>` with five `<Route>` entries:

  - `<Route exact path='/' component={UserGenPage}/>`
  - `<Route path='/home'><p>You are at the start page</p></Route>`
  - `<Route path='/make' component={MakerPage}/>`
  - `<Route path='/book' component={BookPage}/>`
  - `<Route path="/order/:orderId" component={OrderPage}/>`

The matching semantics of a `<Route>` path is that of `path-to-regexp` 1.x as
used by react-router v5: a pattern is a sequence of literal segments and
`:name` parameters; the compiled regular expression anchors at the start of
the URL path, requires each literal to match its segment case-insensitively
(no `sensitive` option is set), binds each parameter to one non-empty
slash-free segment, tolerates a single trailing slash, and — when the `exact`
prop is absent — accepts any extension of the matched segment sequence that
begins at a `/` boundary.  A `<Switch>` renders the first child whose path
matches the current location, and only that child.

These semantics are modelled below on the URL path string, by splitting it at
`/` characters into segments (lists of characters).
-/

/-- One token of a compiled route pattern: either a literal path segment or a
named parameter (`:orderId`). -/
inductive Token where
  | lit : String → Token
  | param : String → Token
deriving DecidableEq, Repr

/-- The page components that the route table binds (external collaborators;
their internals are out of scope, so they are atoms here). -/
inductive Component where
  | UserGenPage
  | MakerPage
  | BookPage
  | OrderPage
deriving DecidableEq, Repr

/-- What a `<Route>` renders when selected: either a bound `component` prop,
or inline JSX children (the `/home` route renders `<p>You are at the start
page</p>`). -/
inductive RouteView where
  | component : Component → RouteView
  | children : String → RouteView
deriving DecidableEq, Repr

/-- A `<Route>` entry: compiled path pattern, presence of the `exact` prop,
and what it renders. -/
structure RouteEntry where
  tokens : List Token
  isExact : Bool
  view : RouteView
deriving DecidableEq, Repr

/-- Extracted path parameters: an association list from parameter name to the
matched segment, as react-router passes them in `props.match.params`. -/
abbrev Params := List (String × String)

/-- The observable output of the routing shell for one URL: which view is
rendered, with which parameters. -/
inductive RouteOutput where
  | component : Component → Params → RouteOutput
  | text : String → RouteOutput
deriving DecidableEq, Repr

/-- Prepend a character to the first piece of a split. -/
def consHead (c : Char) : List (List Char) → List (List Char)
  | [] => [[c]]
  | s :: ss => (c :: s) :: ss

/-- Split a character list at every `/`, keeping empty pieces, exactly as the
`path-to-regexp` regular expressions see the URL path.  The result is never
empty: it is `[[]]` for the empty input. -/
def splitOnSlash : List Char → List (List Char)
  | [] => [[]]
  | c :: rest =>
    if c = '/' then [] :: splitOnSlash rest
    else consHead c (splitOnSlash rest)

/-- The segments of a URL path.  A browser pathname starts with `/`; the
leading empty piece is dropped, and a path with no leading `/` yields `none`
(no anchored pattern can match it). -/
def pathSegs (p : String) : Option (List (List Char)) :=
  match splitOnSlash p.toList with
  | [] :: rest => some rest
  | _ => none

/-- Case-insensitive segment comparison: react-router v5 compiles route
regexes without the `sensitive` option, so literals match ignoring case. -/
def ciEq (a b : List Char) : Bool := a.map Char.toLower == b.map Char.toLower

/-- Match a token list against the leading segments of a path, returning the
extracted parameters and the remaining (unconsumed) segments.  A literal must
equal its segment (case-insensitively); a `:name` parameter consumes one
non-empty segment (`path-to-regexp` compiles parameters to the sub-pattern
`[^\x2f]+?`, which cannot match the empty string). -/
def matchTokens : List Token → List (List Char) → Option (Params × List (List Char))
  | [], segs => some ([], segs)
  | _ :: _, [] => none
  | Token.lit l :: ts, s :: segs =>
    if ciEq l.toList s then matchTokens ts segs else none
  | Token.param n :: ts, s :: segs =>
    if s.isEmpty then none
    else
      match matchTokens ts segs with
      | none => none
      | some (ps, rest) => some ((n, String.mk s) :: ps, rest)

/-- After an `exact` route has consumed all its tokens, the rest of the path
must be empty up to a single tolerated trailing slash (the compiled regex
ends in an optional `/` followed by the end anchor). -/
def exactTailOk : List (List Char) → Bool
  | [] => true
  | s :: rest => s.isEmpty && rest.isEmpty

/-- `matchPath r p`: does route entry `r` match URL path `p`, and with which
parameters?  Without `exact`, any remainder after the matched segment prefix
is accepted (the compiled regex only requires a `/` boundary or the end of
the string there, which segment-wise consumption guarantees). -/
def matchPath (r : RouteEntry) (p : String) : Option Params :=
  match pathSegs p with
  | none => none
  | some segs =>
    match matchTokens r.tokens segs with
    | none => none
    | some (ps, rest) =>
      if r.isExact then
        if exactTailOk rest then some ps else none
      else some ps

/-- `<Route exact path='/' component={UserGenPage}/>` (line 18). -/
def routeRoot : RouteEntry :=
  { tokens := [], isExact := true, view := RouteView.component Component.UserGenPage }

/-- `<Route path='/home'><p>You are at the start page</p></Route>` (line 19). -/
def routeHome : RouteEntry :=
  { tokens := [Token.lit "home"], isExact := false,
    view := RouteView.children "You are at the start page" }

/-- `<Route path='/make' component={MakerPage}/>` (line 20). -/
def routeMake : RouteEntry :=
  { tokens := [Token.lit "make"], isExact := false,
    view := RouteView.component Component.MakerPage }

/-- `<Route path='/book' component={BookPage}/>` (line 21). -/
def routeBook : RouteEntry :=
  { tokens := [Token.lit "book"], isExact := false,
    view := RouteView.component Component.BookPage }

/-- `<Route path="/order/:orderId" component={OrderPage}/>` (line 22). -/
def routeOrder : RouteEntry :=
  { tokens := [Token.lit "order", Token.param "orderId"], isExact := false,
    view := RouteView.component Component.OrderPage }

/-- The ordered route table built by `HomePage.render`, in declaration
order. -/
def routes : List RouteEntry := [routeRoot, routeHome, routeMake, routeBook, routeOrder]

/-- What a selected route renders: its `component` prop applied to the
extracted parameters, or its inline children. -/
def renderEntry (r : RouteEntry) (ps : Params) : RouteOutput :=
  match r.view with
  | RouteView.component c => RouteOutput.component c ps
  | RouteView.children s => RouteOutput.text s

/-- `<Switch>` semantics: render the first child route whose path matches the
current URL; if none matches, render nothing. -/
def switchRender : List RouteEntry → String → Option RouteOutput
  | [], _ => none
  | r :: rs, p =>
    match matchPath r p with
    | some ps => some (renderEntry r ps)
    | none => switchRender rs p

/-- The index (position in the child list) of the route a `<Switch>` selects
for a URL path, if any. -/
def switchSelectIdx : List RouteEntry → String → Option Nat
  | [], _ => none
  | r :: rs, p =>
    match matchPath r p with
    | some _ => some 0
    | none => (switchSelectIdx rs p).map (· + 1)

/-- The routing shell of `HomePage.render`: the whole `<Switch>` applied to
the current URL path. -/
def homePageRender (p : String) : Option RouteOutput := switchRender routes p

/-- The route table that one call of `HomePage.render` constructs.  `render`
reads neither `this.props` nor any state, so the table is the same constant
whatever props the component instance holds. -/
def renderRouteTable {P : Type} (_props : P) : List RouteEntry := routes

/-- `HomePage.render` as seen from a component instance with props of any
type `P`: the dispatch applied to the table built by that instance. -/
def homePageRenderP {P : Type} (props : P) (p : String) : Option RouteOutput :=
  switchRender (renderRouteTable props) p

/-! ## Helper lemmas about path segmentation -/

theorem consHead_ne_nil (c : Char) (l : List (List Char)) : consHead c l ≠ [] := by
  cases l <;> simp [consHead]

theorem splitOnSlash_ne_nil (cs : List Char) : splitOnSlash cs ≠ [] := by
  induction cs with
  | nil => simp [splitOnSlash]
  | cons c rest ih =>
    simp only [splitOnSlash]
    split
    · simp
    · exact consHead_ne_nil c _

theorem splitOnSlash_slash (cs : List Char) :
    splitOnSlash ('/' :: cs) = [] :: splitOnSlash cs := by
  simp [splitOnSlash]

theorem splitOnSlash_no_slash (cs : List Char) (h : '/' ∉ cs) :
    splitOnSlash cs = [cs] := by
  induction cs with
  | nil => rfl
  | cons c rest ih =>
    rw [List.mem_cons, not_or] at h
    have hc : c ≠ '/' := fun hcc => h.1 hcc.symm
    simp [splitOnSlash, hc, ih h.2, consHead]

theorem splitOnSlash_append (ys cs : List Char) (h : '/' ∉ ys) :
    splitOnSlash (ys ++ '/' :: cs) = ys :: splitOnSlash cs := by
  induction ys with
  | nil => simp [splitOnSlash_slash]
  | cons y ys ih =>
    rw [List.mem_cons, not_or] at h
    have hy : y ≠ '/' := fun hyy => h.1 hyy.symm
    simp only [List.cons_append, splitOnSlash, hy, if_false, List.append_eq, ih h.2, consHead]

theorem splitOnSlash_eq_single_nil (cs : List Char) :
    splitOnSlash cs = [[]] ↔ cs = [] := by
  constructor
  · intro h
    cases cs with
    | nil => rfl
    | cons c rest =>
      simp only [splitOnSlash] at h
      split at h
      · have := splitOnSlash_ne_nil rest
        simp at h
        exact absurd h this
      · cases hsp : splitOnSlash rest with
        | nil => exact absurd hsp (splitOnSlash_ne_nil rest)
        | cons s ss => rw [hsp] at h; simp [consHead] at h
  · intro h; subst h; rfl

theorem String.mk_toList (s : String) : String.mk s.toList = s := rfl

/-! ## Switch dispatch lemmas -/

theorem switchSelectIdx_eq_some (rs : List RouteEntry) (p : String) (i : Nat) :
    switchSelectIdx rs p = some i ↔
      ((∃ r, rs.get? i = some r ∧ (matchPath r p).isSome = true) ∧
        ∀ j r, j < i → rs.get? j = some r → matchPath r p = none) := by
  induction rs generalizing i with
  | nil => simp [switchSelectIdx]
  | cons r rs ih =>
    cases hm : matchPath r p with
    | some ps =>
      simp only [switchSelectIdx, hm]
      constructor
      · intro h
        have h0 : i = 0 := (Option.some.inj h).symm
        subst h0
        refine ⟨⟨r, rfl, by simp [hm]⟩, ?_⟩
        intro j r' hj
        exact absurd hj (Nat.not_lt_zero j)
      · rintro ⟨⟨r', hr', hm'⟩, hnone⟩
        cases i with
        | zero => rfl
        | succ k =>
          have hz := hnone 0 r (Nat.succ_pos k) rfl
          rw [hm] at hz
          exact absurd hz (by simp)
    | none =>
      simp only [switchSelectIdx, hm]
      cases i with
      | zero =>
        simp only [Option.map_eq_some']
        constructor
        · rintro ⟨a, _, ha⟩
          exact absurd ha (by simp)
        · rintro ⟨⟨r', hr', hm'⟩, _⟩
          rw [List.get?_cons_zero] at hr'
          have : r' = r := (Option.some.inj hr').symm
          subst this
          rw [hm] at hm'
          exact absurd hm' (by simp)
      | succ k =>
        simp only [Option.map_eq_some']
        constructor
        · rintro ⟨a, hsel, ha⟩
          rw [show a = k by omega] at hsel
          have hres := (ih k).mp hsel
          refine ⟨?_, ?_⟩
          · obtain ⟨r', hr', hm'⟩ := hres.1
            exact ⟨r', by simpa using hr', hm'⟩
          · intro j r' hj hget
            cases j with
            | zero =>
              rw [List.get?_cons_zero] at hget
              have : r' = r := (Option.some.inj hget).symm
              subst this
              exact hm
            | succ m =>
              exact hres.2 m r' (Nat.lt_of_succ_lt_succ hj) (by simpa using hget)
        · rintro ⟨hex, hnone⟩
          refine ⟨k, (ih k).mpr ⟨?_, ?_⟩, rfl⟩
          · obtain ⟨r', hr', hm'⟩ := hex
            exact ⟨r', by simpa using hr', hm'⟩
          · intro j r' hj hget
            exact hnone (j + 1) r' (Nat.succ_lt_succ hj) (by simpa using hget)

theorem switchSelectIdx_some_render (rs : List RouteEntry) (p : String) (i : Nat)
    (h : switchSelectIdx rs p = some i) :
    ∃ r ps, rs.get? i = some r ∧ matchPath r p = some ps ∧
      switchRender rs p = some (renderEntry r ps) := by
  induction rs generalizing i with
  | nil => simp [switchSelectIdx] at h
  | cons r rs ih =>
    cases hm : matchPath r p with
    | some ps =>
      rw [switchSelectIdx, hm] at h
      have h0 : i = 0 := (Option.some.inj h).symm
      subst h0
      exact ⟨r, ps, rfl, hm, by simp [switchRender, hm]⟩
    | none =>
      rw [switchSelectIdx, hm] at h
      obtain ⟨k, hk, hki⟩ := Option.map_eq_some'.mp h
      subst hki
      obtain ⟨r', ps, hr', hps, hrender⟩ := ih k hk
      exact ⟨r', ps, by simpa using hr', hps, by simp [switchRender, hm, hrender]⟩

theorem switchRender_eq_none_iff (rs : List RouteEntry) (p : String) :
    switchRender rs p = none ↔ ∀ r ∈ rs, matchPath r p = none := by
  induction rs with
  | nil => simp [switchRender]
  | cons r rs ih =>
    cases hm : matchPath r p with
    | some ps =>
      simp only [switchRender, hm]
      constructor
      · intro h
        exact absurd h (by simp)
      · intro h
        have := h r (List.mem_cons_self r rs)
        rw [hm] at this
        exact absurd this (by simp)
    | none =>
      simp only [switchRender, hm]
      rw [ih]
      constructor
      · intro h r' hr'
        rcases List.mem_cons.mp hr' with hr' | hr'
        · subst hr'; exact hm
        · exact h r' hr'
      · intro h r' hr'
        exact h r' (List.mem_cons_of_mem r hr')

theorem String.mk_data (s : String) : String.mk s.data = s := rfl

theorem data_ne_nil (X : String) (h : X ≠ "") : ¬X.data = [] := by
  intro hc
  apply h
  rw [← String.mk_toList X]
  show String.mk X.data = ""
  rw [hc]

theorem pathSegs_eq (p : String) (cs : List Char) (hp : p.toList = '/' :: cs) :
    pathSegs p = some (splitOnSlash cs) := by
  unfold pathSegs
  rw [hp, splitOnSlash_slash]

theorem matchPath_eq (r : RouteEntry) (p : String) (segs : List (List Char))
    (h : pathSegs p = some segs) :
    matchPath r p =
      match matchTokens r.tokens segs with
      | none => none
      | some (ps, rest) =>
        if r.isExact then if exactTailOk rest then some ps else none
        else some ps := by
  unfold matchPath
  rw [h]

/-! ## Claim theorems -/

/-- C1: For every URL path, at most one of the five route entries of the
ordered table `/`, `/home`, `/make`, `/book`, `/order/:orderId` is active and
rendered: the `<Switch>` selects index `i` exactly when entry `i` matches the
path and every entry before it does not (first-match-wins, top-to-bottom),
and the rendered output is that single entry's view — so no two entries ever
render simultaneously for one URL. -/
theorem switch_first_match_wins (p : String) (i : Nat) :
    (switchSelectIdx routes p = some i ↔
      ((∃ r, routes.get? i = some r ∧ (matchPath r p).isSome = true) ∧
        ∀ j r, j < i → routes.get? j = some r → matchPath r p = none)) ∧
    (switchSelectIdx routes p = some i →
      ∃ r ps, routes.get? i = some r ∧ matchPath r p = some ps ∧
        homePageRender p = some (renderEntry r ps)) :=
  ⟨switchSelectIdx_eq_some routes p i, switchSelectIdx_some_render routes p i⟩

theorem switch_first_match_wins_witness :
    ∃ r ps, routes.get? 4 = some r ∧ matchPath r "/order/42" = some ps ∧
      homePageRender "/order/42" = some (renderEntry r ps) :=
  (switch_first_match_wins "/order/42" 4).2 (by decide)

/-- C2: For every URL whose path is `/order/<X>` with `<X>` a non-empty
slash-free path segment, the shell renders `OrderPage` with the path
parameter `orderId` bound to `<X>`. -/
theorem order_route_binds_orderId (p X : String) (h1 : X ≠ "") (h2 : '/' ∉ X.toList)
    (hp : p.toList = "/order/".toList ++ X.toList) :
    homePageRender p = some (RouteOutput.component Component.OrderPage [("orderId", X)]) := by
  rw [show "/order/".toList ++ X.toList = '/' :: (['o', 'r', 'd', 'e', 'r'] ++ '/' :: X.toList)
    from rfl] at hp
  have hsegs := pathSegs_eq p _ hp
  rw [splitOnSlash_append _ _ (by decide), splitOnSlash_no_slash _ h2] at hsegs
  have hX : ¬X.data = [] := data_ne_nil X h1
  have hroot : matchPath routeRoot p = none := by
    rw [matchPath_eq routeRoot p _ hsegs]
    simp [matchTokens, routeRoot, exactTailOk]
  have hhome : matchPath routeHome p = none := by
    rw [matchPath_eq routeHome p _ hsegs]
    simp [matchTokens, routeHome,
      (by decide : ciEq ['h', 'o', 'm', 'e'] ['o', 'r', 'd', 'e', 'r'] = false)]
  have hmake : matchPath routeMake p = none := by
    rw [matchPath_eq routeMake p _ hsegs]
    simp [matchTokens, routeMake,
      (by decide : ciEq ['m', 'a', 'k', 'e'] ['o', 'r', 'd', 'e', 'r'] = false)]
  have hbook : matchPath routeBook p = none := by
    rw [matchPath_eq routeBook p _ hsegs]
    simp [matchTokens, routeBook,
      (by decide : ciEq ['b', 'o', 'o', 'k'] ['o', 'r', 'd', 'e', 'r'] = false)]
  have horder : matchPath routeOrder p = some [("orderId", X)] := by
    rw [matchPath_eq routeOrder p _ hsegs]
    simp [matchTokens, routeOrder, hX, String.mk_data,
      (by decide : ciEq ['o', 'r', 'd', 'e', 'r'] ['o', 'r', 'd', 'e', 'r'] = true)]
  show homePageRender p = _
  simp only [homePageRender, routes, switchRender, hroot, hhome, hmake, hbook, horder]
  simp [renderEntry, routeOrder]

theorem order_route_binds_orderId_witness :
    homePageRender "/order/42" =
      some (RouteOutput.component Component.OrderPage [("orderId", "42")]) :=
  order_route_binds_orderId "/order/42" "42" (by decide) (by decide) (by decide)

/-- C3: The `/` pattern is `exact`: the URL `/` renders the User Generation
View, and the `/` entry matches no other URL path — in particular none of
`/home`, `/make`, `/book` nor any longer path. -/
theorem root_route_exact_match_only :
    homePageRender "/" = some (RouteOutput.component Component.UserGenPage []) ∧
    ∀ (p : String) (cs : List Char), cs ≠ [] → p.toList = '/' :: cs →
      matchPath routeRoot p = none := by
  refine ⟨by decide, ?_⟩
  intro p cs hcs hp
  have hsegs := pathSegs_eq p cs hp
  cases hsp : splitOnSlash cs with
  | nil => exact absurd hsp (splitOnSlash_ne_nil cs)
  | cons s rest =>
    have htail : exactTailOk (s :: rest) = false := by
      cases s with
      | cons a l => simp [exactTailOk]
      | nil =>
        cases rest with
        | cons t ts => simp [exactTailOk]
        | nil => exact absurd ((splitOnSlash_eq_single_nil cs).mp hsp) hcs
    rw [hsp] at hsegs
    rw [matchPath_eq routeRoot p _ hsegs]
    simp [matchTokens, routeRoot, htail]

theorem root_route_exact_match_only_witness : matchPath routeRoot "/home" = none :=
  root_route_exact_match_only.2 "/home" ['h', 'o', 'm', 'e'] (by decide) (by decide)

/-- C4 counterexample: the URL path `/homepage` begins with `/home` as a
string, yet the shell renders nothing for it — the `/home` pattern only
matches at a `/` segment boundary, so the claim read as plain string-prefix
matching is false. -/
theorem home_string_prefix_counterexample :
    "/homepage".toList = "/home".toList ++ ['p', 'a', 'g', 'e'] ∧
    homePageRender "/homepage" = none := ⟨rfl, by decide⟩

/-- C4 (amended): for every URL whose path begins with `/home` at a segment
boundary — the path `/home` itself, or `/home/` followed by anything — the
rendered output is the literal static text, produced from the route's inline
children with no page collaborator. -/
theorem home_route_segment_prefix_renders_text (p : String) (cs : List Char)
    (hp : p.toList = "/home/".toList ++ cs) :
    homePageRender "/home" = some (RouteOutput.text "You are at the start page") ∧
    homePageRender p = some (RouteOutput.text "You are at the start page") := by
  refine ⟨by decide, ?_⟩
  rw [show "/home/".toList ++ cs = '/' :: (['h', 'o', 'm', 'e'] ++ '/' :: cs) from rfl] at hp
  have hsegs := pathSegs_eq p _ hp
  rw [splitOnSlash_append _ _ (by decide)] at hsegs
  have hroot : matchPath routeRoot p = none := by
    rw [matchPath_eq routeRoot p _ hsegs]
    simp [matchTokens, routeRoot, exactTailOk]
  have hhome : matchPath routeHome p = some [] := by
    rw [matchPath_eq routeHome p _ hsegs]
    simp [matchTokens, routeHome,
      (by decide : ciEq ['h', 'o', 'm', 'e'] ['h', 'o', 'm', 'e'] = true)]
  show homePageRender p = _
  simp only [homePageRender, routes, switchRender, hroot, hhome]
  simp [renderEntry, routeHome]

theorem home_route_segment_prefix_renders_text_witness :
    homePageRender "/home" = some (RouteOutput.text "You are at the start page") ∧
    homePageRender "/home/extra" = some (RouteOutput.text "You are at the start page") :=
  home_route_segment_prefix_renders_text "/home/extra" ['e', 'x', 't', 'r', 'a'] (by decide)

/-- C5: For the URL path `/make`, the rendered output is the Maker View. -/
theorem make_route_renders_maker :
    homePageRender "/make" = some (RouteOutput.component Component.MakerPage []) := by
  decide

/-- C6: For the URL path `/book`, the rendered output is the Book View. -/
theorem book_route_renders_book :
    homePageRender "/book" = some (RouteOutput.component Component.BookPage []) := by
  decide

/-- C7: For every URL path matched by none of the five declared route
patterns, no route entry renders — the dispatch produces no view — and
conversely the dispatch produces no view only when no pattern matches (there
is no fallback or not-found route in the list). -/
theorem unmatched_url_renders_nothing (p : String) :
    homePageRender p = none ↔ ∀ r ∈ routes, matchPath r p = none :=
  switchRender_eq_none_iff routes p

theorem unmatched_url_renders_nothing_witness : homePageRender "/nope" = none :=
  (unmatched_url_renders_nothing "/nope").mpr (by decide)

/-- C8: The routes `/make`, `/book` and `/order/:orderId` are declared
without the `exact` flag, so they match by path-segment prefix: for every
URL whose path extends the pattern with further segments (`/make/<more>`,
`/book/<more>`, `/order/<X>/<more>`), the corresponding view still renders,
with `orderId` bound to the segment immediately following `/order/`. -/
theorem nonexact_routes_match_extensions (pm pb po X : String)
    (csm csb cso : List Char) (h1 : X ≠ "") (h2 : '/' ∉ X.toList)
    (hm : pm.toList = "/make/".toList ++ csm)
    (hb : pb.toList = "/book/".toList ++ csb)
    (ho : po.toList = "/order/".toList ++ X.toList ++ '/' :: cso) :
    routeMake.isExact = false ∧ routeBook.isExact = false ∧ routeOrder.isExact = false ∧
    homePageRender pm = some (RouteOutput.component Component.MakerPage []) ∧
    homePageRender pb = some (RouteOutput.component Component.BookPage []) ∧
    homePageRender po = some (RouteOutput.component Component.OrderPage [("orderId", X)]) := by
  refine ⟨rfl, rfl, rfl, ?_, ?_, ?_⟩
  · rw [show "/make/".toList ++ csm = '/' :: (['m', 'a', 'k', 'e'] ++ '/' :: csm) from rfl] at hm
    have hsegs := pathSegs_eq pm _ hm
    rw [splitOnSlash_append _ _ (by decide)] at hsegs
    have hroot : matchPath routeRoot pm = none := by
      rw [matchPath_eq routeRoot pm _ hsegs]
      simp [matchTokens, routeRoot, exactTailOk]
    have hhome : matchPath routeHome pm = none := by
      rw [matchPath_eq routeHome pm _ hsegs]
      simp [matchTokens, routeHome,
        (by decide : ciEq ['h', 'o', 'm', 'e'] ['m', 'a', 'k', 'e'] = false)]
    have hmake : matchPath routeMake pm = some [] := by
      rw [matchPath_eq routeMake pm _ hsegs]
      simp [matchTokens, routeMake,
        (by decide : ciEq ['m', 'a', 'k', 'e'] ['m', 'a', 'k', 'e'] = true)]
    show homePageRender pm = _
    simp only [homePageRender, routes, switchRender, hroot, hhome, hmake]
    simp [renderEntry, routeMake]
  · rw [show "/book/".toList ++ csb = '/' :: (['b', 'o', 'o', 'k'] ++ '/' :: csb) from rfl] at hb
    have hsegs := pathSegs_eq pb _ hb
    rw [splitOnSlash_append _ _ (by decide)] at hsegs
    have hroot : matchPath routeRoot pb = none := by
      rw [matchPath_eq routeRoot pb _ hsegs]
      simp [matchTokens, routeRoot, exactTailOk]
    have hhome : matchPath routeHome pb = none := by
      rw [matchPath_eq routeHome pb _ hsegs]
      simp [matchTokens, routeHome,
        (by decide : ciEq ['h', 'o', 'm', 'e'] ['b', 'o', 'o', 'k'] = false)]
    have hmake : matchPath routeMake pb = none := by
      rw [matchPath_eq routeMake pb _ hsegs]
      simp [matchTokens, routeMake,
        (by decide : ciEq ['m', 'a', 'k', 'e'] ['b', 'o', 'o', 'k'] = false)]
    have hbook : matchPath routeBook pb = some [] := by
      rw [matchPath_eq routeBook pb _ hsegs]
      simp [matchTokens, routeBook,
        (by decide : ciEq ['b', 'o', 'o', 'k'] ['b', 'o', 'o', 'k'] = true)]
    show homePageRender pb = _
    simp only [homePageRender, routes, switchRender, hroot, hhome, hmake, hbook]
    simp [renderEntry, routeBook]
  · rw [show "/order/".toList ++ X.toList ++ '/' :: cso =
      '/' :: (['o', 'r', 'd', 'e', 'r'] ++ '/' :: (X.toList ++ '/' :: cso)) from rfl] at ho
    have hsegs := pathSegs_eq po _ ho
    rw [splitOnSlash_append _ _ (by decide), splitOnSlash_append _ _ h2] at hsegs
    have hX : ¬X.data = [] := data_ne_nil X h1
    have hroot : matchPath routeRoot po = none := by
      rw [matchPath_eq routeRoot po _ hsegs]
      simp [matchTokens, routeRoot, exactTailOk]
    have hhome : matchPath routeHome po = none := by
      rw [matchPath_eq routeHome po _ hsegs]
      simp [matchTokens, routeHome,
        (by decide : ciEq ['h', 'o', 'm', 'e'] ['o', 'r', 'd', 'e', 'r'] = false)]
    have hmake : matchPath routeMake po = none := by
      rw [matchPath_eq routeMake po _ hsegs]
      simp [matchTokens, routeMake,
        (by decide : ciEq ['m', 'a', 'k', 'e'] ['o', 'r', 'd', 'e', 'r'] = false)]
    have hbook : matchPath routeBook po = none := by
      rw [matchPath_eq routeBook po _ hsegs]
      simp [matchTokens, routeBook,
        (by decide : ciEq ['b', 'o', 'o', 'k'] ['o', 'r', 'd', 'e', 'r'] = false)]
    have horder : matchPath routeOrder po = some [("orderId", X)] := by
      rw [matchPath_eq routeOrder po _ hsegs]
      simp [matchTokens, routeOrder, hX, String.mk_data,
        (by decide : ciEq ['o', 'r', 'd', 'e', 'r'] ['o', 'r', 'd', 'e', 'r'] = true)]
    show homePageRender po = _
    simp only [homePageRender, routes, switchRender, hroot, hhome, hmake, hbook, horder]
    simp [renderEntry, routeOrder]

theorem nonexact_routes_match_extensions_witness :
    routeMake.isExact = false ∧ routeBook.isExact = false ∧ routeOrder.isExact = false ∧
    homePageRender "/make/extra" = some (RouteOutput.component Component.MakerPage []) ∧
    homePageRender "/book/x/y" = some (RouteOutput.component Component.BookPage []) ∧
    homePageRender "/order/42/detail" =
      some (RouteOutput.component Component.OrderPage [("orderId", "42")]) :=
  nonexact_routes_match_extensions "/make/extra" "/book/x/y" "/order/42/detail" "42"
    ['e', 'x', 't', 'r', 'a'] ['x', '/', 'y'] ['d', 'e', 't', 'a', 'i', 'l']
    (by decide) (by decide) (by decide) (by decide) (by decide)

/-- C9: For the URL paths `/order` and `/order/`, the `/order/:orderId`
pattern does not match — the `:orderId` parameter requires a non-empty path
segment — and since no other pattern matches either, no route renders. -/
theorem order_without_id_renders_nothing :
    matchPath routeOrder "/order" = none ∧ matchPath routeOrder "/order/" = none ∧
    homePageRender "/order" = none ∧ homePageRender "/order/" = none := by
  decide

/-- C10: Route dispatch is deterministic and depends only on the URL path:
the route table `render` builds is the same fixed constant whatever props the
component instance holds, so any two evaluations of the dispatch on the same
URL path render the same view with the same bound parameters. -/
theorem route_dispatch_deterministic {P Q : Type} (props₁ : P) (props₂ : Q) (p : String) :
    renderRouteTable props₁ = renderRouteTable props₂ ∧
    homePageRenderP props₁ p = homePageRenderP props₂ p ∧
    homePageRenderP props₁ p = homePageRender p :=
  ⟨rfl, rfl, rfl⟩
